import Mathlib

/-!
Verification of the Sectograph-ZeppOS event service against its specification.

The definitions below are a shallow embedding of the JavaScript sources, mainly
`src/app/TimeManager/utils/services/SettingsService.js` (which contains the
`EventService` class) and `src/app/SectographApp/utils/calculate.js`.

Conventions of the embedding:
- JavaScript numbers holding millisecond timestamps are modelled as `Int`
  (every value that occurs is an integer number of milliseconds, exactly
  representable in a double).
- The device local time zone is modelled as UTC (offset 0, no DST): all
  `Date` accessors (`getHours`, `getDate`, ...) are computed from the raw
  timestamp with floor division, which is what ECMA local-time field
  computation yields at offset 0.  Lean `Int` division `/` and `%` are
  euclidean, which agrees with mathematical floor division for the positive
  literal divisors used throughout.
- Angle values (JavaScript doubles that are always integer multiples of 0.5)
  are modelled as `ℚ`; every double operation performed on them by the source
  (`*0.5`, `-360`, `%360` on values below 720) is exact, so `ℚ` is faithful.
- JavaScript exceptions are modelled with `Except String`.
- Values that the source turns into strings through the `Date + number`
  coercion are modelled with the sum type `JSVal`.
-/

/-- Milliseconds per hour. Modelled from the spec: the `Constants` module is not
among the sources; the 2h / 10h / 24h windows of the spec fix `HOUR_MS` as the
number of milliseconds in an hour. -/
def HOUR_MS : Int := 3600000

/-- Milliseconds per day (`msPerDay` of ECMA date arithmetic). -/
def DAY_MS : Int := 86400000

/-- Civil date from a day number inside one 400-year era: the standard
days-to-civil algorithm restricted to a day-of-era `doe` in `[0, 146096]`.
Returns (year offset into the era adjusted for Jan/Feb, month `1..12`,
day `1..31`). -/
def civilOfDoe (doe : Int) : Int × Int × Int :=
  let yoe := (doe - doe / 1460 + doe / 36524 - doe / 146096) / 365
  let doy := doe - (365 * yoe + yoe / 4 - yoe / 100)
  let mp := (5 * doy + 2) / 153
  let d := doy - (153 * mp + 2) / 5 + 1
  let m := mp + (if mp < 10 then 3 else -9)
  (yoe + (if m ≤ 2 then 1 else 0), m, d)

/-- Proleptic-Gregorian civil date (year, month `1..12`, day) of day number `z`
(days since 1970-01-01).  This is the mathematical function computed by the
ECMA `YearFromTime` / `MonthFromTime` / `DateFromTime` accessors; implemented
with floor (euclidean) division, so no separate negative-day adjustment is
needed. -/
def civilFromDays (z : Int) : Int × Int × Int :=
  let era := (z + 719468) / 146097
  let c := civilOfDoe ((z + 719468) % 146097)
  (c.1 + era * 400, c.2.1, c.2.2)

/-- Day number (days since 1970-01-01) of the civil date (y, m, d) with month
`1..12`; `d` may lie outside `1..31` and is carried linearly, matching the ECMA
`MakeDay` treatment of the day argument. -/
def daysFromCivil (y m d : Int) : Int :=
  let y2 := y - (if m ≤ 2 then 1 else 0)
  let era := y2 / 400
  let yoe := y2 - era * 400
  let doy := (153 * (m + (if m > 2 then -3 else 9)) + 2) / 5 + d - 1
  let doe := yoe * 365 + yoe / 4 - yoe / 100 + doy
  era * 146097 + doe - 719468

/-- Gregorian leap-year predicate (as in ECMA `DaysInYear`). -/
def isLeapYearG (y : Int) : Bool :=
  decide ((y % 4 = 0 ∧ ¬ y % 100 = 0) ∨ y % 400 = 0)

/-- Number of days in February of year `y`. -/
def febDaysG (y : Int) : Int := if isLeapYearG y then 29 else 28

/-- ECMA `Day(t)`: day number containing timestamp `t`. -/
def dayNumberOf (t : Int) : Int := t / DAY_MS

/-- ECMA `TimeWithinDay(t)`, in `[0, DAY_MS)`. -/
def timeWithinDayOf (t : Int) : Int := t % DAY_MS

/-- JavaScript `Date.prototype.getFullYear` (local time = UTC here). -/
def jsGetFullYear (t : Int) : Int := (civilFromDays (dayNumberOf t)).1

/-- JavaScript `Date.prototype.getMonth`: zero-based month. -/
def jsGetMonth (t : Int) : Int := (civilFromDays (dayNumberOf t)).2.1 - 1

/-- JavaScript `Date.prototype.getDate`: day of month. -/
def jsGetDate (t : Int) : Int := (civilFromDays (dayNumberOf t)).2.2

/-- JavaScript `Date.prototype.getDay`: weekday, 0 = Sunday; day 0
(1970-01-01) was a Thursday, hence the offset 4. -/
def jsGetDay (t : Int) : Int := (dayNumberOf t + 4) % 7

/-- JavaScript `Date.prototype.getHours`. -/
def jsGetHours (t : Int) : Int := timeWithinDayOf t / HOUR_MS

/-- JavaScript `Date.prototype.getMinutes`. -/
def jsGetMinutes (t : Int) : Int := timeWithinDayOf t % HOUR_MS / 60000

/-- JavaScript `Date.prototype.getSeconds`. -/
def jsGetSeconds (t : Int) : Int := timeWithinDayOf t % 60000 / 1000

/-- ECMA `MakeFullYear`: the `Date(year, month, day)` constructor remaps a year
argument in `0..99` to `1900..1999`. -/
def mkFullYear (y : Int) : Int := if 0 ≤ y ∧ y ≤ 99 then y + 1900 else y

/-- ECMA `MakeDay(y, m, d)` with zero-based month `m`: months overflow into
years, the day argument is carried linearly (so day 0 is the last day of the
preceding month). -/
def mkDayNumber (y m d : Int) : Int :=
  daysFromCivil (y + m / 12) (m % 12 + 1) 1 + (d - 1)

/-- JavaScript `new Date(y, m, d).getTime()` at local offset 0: two-digit year
remapping followed by `MakeDay`, at local midnight. -/
def jsNewDateYMD (y m d : Int) : Int := mkDayNumber (mkFullYear y) m d * DAY_MS

/-- JavaScript `Date.prototype.setDate(d)` (local = UTC): keep year, month and
time of day, replace the day of month by `d` (normalised by `MakeDay`; no
two-digit year remapping on this path). -/
def jsSetDate (t d : Int) : Int :=
  mkDayNumber (jsGetFullYear t) (jsGetMonth t) d * DAY_MS + timeWithinDayOf t

/-- The `setHours(0); setMinutes(0); setSeconds(0); setMilliseconds(0)` chain:
truncate `t` to local (= UTC) midnight. -/
def jsSetMidnight (t : Int) : Int := dayNumberOf t * DAY_MS

/-- `EventService.#getMsToSameDateInNextMonth` (SettingsService.js lines
741-755).  Reads `getDate` / `getMonth` / `getFullYear` of `event.start`,
computes the number of days in the next month via
`new Date(nextYear, nextMonth + 1, 0).getDate()`, clamps the day and returns
`new Date(nextYear, nextMonth, nextDay).getTime() - start.getTime()`.
The function only uses `event.start`, so the embedding takes the start
timestamp directly. -/
def getMsToSameDateInNextMonth (startTs : Int) : Int :=
  let currentDay := jsGetDate startTs
  let nextMonth0 := jsGetMonth startTs + 1
  let nextMonth := if nextMonth0 > 11 then 0 else nextMonth0
  let nextYear := if nextMonth0 > 11 then jsGetFullYear startTs + 1 else jsGetFullYear startTs
  let daysInNextMonth := jsGetDate (jsNewDateYMD nextYear (nextMonth + 1) 0)
  let nextDay := min currentDay daysInNextMonth
  let nextEventDate := jsNewDateYMD nextYear nextMonth nextDay
  nextEventDate - startTs

/-- A stored event record (spec section 3; the fields validated and used by
SettingsService.js).  `start` and `end` are millisecond timestamps; the model
types the fields, so the `typeof` checks of the source are subsumed by the
type. -/
structure JsEvent where
  id : String
  description : String
  start : Int
  «end» : Int
  color : String
  «repeat» : String
  checkRepeat : String := ""
deriving Repr, DecidableEq

/-- JavaScript `String.prototype.trim`, implemented on the character list so
that it evaluates inside the kernel. -/
def jsTrim (s : String) : String :=
  ⟨((s.data.dropWhile Char.isWhitespace).reverse.dropWhile Char.isWhitespace).reverse⟩

/-- `EventService.#checkEventFields` (SettingsService.js lines 557-577).  The
source throws on a bad field and returns `true` otherwise; it never returns
`false`.  The `new Date(event.start) instanceof Date` checks of the source are
satisfied by every value (a `Date` constructed from anything is still a
`Date`), so only the description and repeat checks can fail. -/
def checkEventFields (event : JsEvent) : Except String Bool :=
  if jsTrim event.description = "" then
    .error "Invalid description: must be a non-empty string"
  else if ¬ (event.«repeat» = "never" ∨ event.«repeat» = "day" ∨
             event.«repeat» = "week" ∨ event.«repeat» = "month") then
    .error "Invalid repeat: must be one of never, day, week, month"
  else
    .ok true

/-- `EventService.#deleteFilter` (SettingsService.js lines 402-427).  The
source guard `event.repeat && event.repeat != 'never'` tests truthiness of the
string; the empty string is the only falsy string, hence the first condition.
`now` is the `new Date()` the source takes inside the method. -/
def deleteFilter (now : Int) (event : JsEvent) (autoDelete : String) : Bool :=
  if event.«repeat» ≠ "" ∧ event.«repeat» ≠ "never" then false
  else
    if autoDelete = "day" then
      decide (now > event.«end» ∧ now - event.«end» > HOUR_MS * 24)
    else if autoDelete = "week" then
      decide (now > event.«end» ∧ now - event.«end» > HOUR_MS * 24 * 7)
    else if autoDelete = "month" then
      decide (now > event.«end» ∧ now - event.«end» > HOUR_MS * 24 * 31)
    else false

/-- `EventService.#actualEventsFilter` (SettingsService.js lines 373-385);
`now` is the `new Date()` taken at entry.  Date-to-Date comparisons in the
source coerce to the numeric timestamps compared here. -/
def actualEventsFilter (now : Int) (event : JsEvent) : Bool :=
  decide ((event.start - now ≤ 10 * HOUR_MS ∧ event.start ≥ now) ∨
          (now - event.«end» ≤ 2 * HOUR_MS ∧ now ≥ event.«end») ∨
          (now ≥ event.start ∧ now ≤ event.«end»))

/-- The scan loop of `EventService.editEvent` (SettingsService.js lines
205-224): for each loaded entry run `#checkEventFields` (which throws on a bad
entry; the throw propagates out of the loop and `editEvent` re-throws it) and
replace the entry whose id matches.  The loaded collection is passed in place
of `#loadEvents`, and persistence is the returned list. -/
def editEventScan (event : JsEvent) : List JsEvent → Except String (List JsEvent)
  | [] => .ok []
  | ev :: rest =>
    match checkEventFields ev with
    | .error e => .error e
    | .ok _ =>
      match editEventScan event rest with
      | .error e => .error e
      | .ok tail => .ok (if event.id = ev.id then event :: tail else ev :: tail)

/-- `EventService.editEvent` on a loaded collection. -/
def editEvent (stored : List JsEvent) (event : JsEvent) : Except String (List JsEvent) :=
  editEventScan event stored

/-- The `while (allEvents.some(e => e.id === event.id)) event.id = generatorId()`
loop of `EventService.#generateEventId` (SettingsService.js lines 645-655).
`gen k` is the k-th value produced by `#generatorId` (which depends on
`Date.now()` and `Math.random()`, so it is a parameter of the model); `fuel`
bounds the number of iterations of the loop, `cur` is the current id. -/
def generatorIdLoop (allIds : List String) (gen : Nat → String) :
    Nat → Nat → String → String
  | 0, _, cur => cur
  | fuel + 1, k, cur =>
    if allIds.contains cur then generatorIdLoop allIds gen fuel (k + 1) (gen k) else cur

/-- `EventService.#generateEventId(event, allEvents)`: starts from the id the
caller supplied on `event` and re-rolls only while it collides. -/
def generateEventId (fuel : Nat) (gen : Nat → String) (event : JsEvent)
    (allEvents : List JsEvent) : String :=
  generatorIdLoop (allEvents.map JsEvent.id) gen fuel 0 event.id

/-- `EventService.createNewEvent` (SettingsService.js lines 171-185): validate
(propagating the throw), load, assign the id via `#generateEventId`, append and
persist.  The `#uploadActualEvents` refresh touches no stored data and is not
modelled. -/
def createNewEvent (fuel : Nat) (gen : Nat → String) (stored : List JsEvent)
    (event : JsEvent) : Except String (List JsEvent) :=
  match checkEventFields event with
  | .error e => .error e
  | .ok _ => .ok (stored ++ [{ event with id := generateEventId fuel gen event stored }])

/-- A JavaScript value that is either a number or a string: the type of
`repeatedEvent.start` inside `#repeateRule`, where `new Date(x) + repeatMs`
performs string concatenation. -/
inductive JSVal where
  | num (n : Int)
  | str (s : String)
deriving Repr, DecidableEq

/-- Weekday names as printed by `Date.prototype.toString`. -/
def weekdayName (w : Int) : String :=
  if w = 0 then "Sun" else if w = 1 then "Mon" else if w = 2 then "Tue"
  else if w = 3 then "Wed" else if w = 4 then "Thu" else if w = 5 then "Fri" else "Sat"

/-- Month names as printed by `Date.prototype.toString`. -/
def monthName (m : Int) : String :=
  if m = 1 then "Jan" else if m = 2 then "Feb" else if m = 3 then "Mar"
  else if m = 4 then "Apr" else if m = 5 then "May" else if m = 6 then "Jun"
  else if m = 7 then "Jul" else if m = 8 then "Aug" else if m = 9 then "Sep"
  else if m = 10 then "Oct" else if m = 11 then "Nov" else "Dec"

/-- Two-digit zero padding used by `Date.prototype.toString`. -/
def pad2 (n : Int) : String := if n < 10 then "0" ++ toString n else toString n

/-- `Date.prototype.toString` at local offset 0, e.g.
`Thu Jan 01 1970 00:00:00 GMT+0000 (Coordinated Universal Time)`.  This is the
string the `+` operator produces from a `Date` (ToPrimitive with the default
hint selects the string representation). -/
def dateToString (t : Int) : String :=
  weekdayName (jsGetDay t) ++ " " ++ monthName (civilFromDays (dayNumberOf t)).2.1 ++ " " ++
  pad2 (jsGetDate t) ++ " " ++ toString (jsGetFullYear t) ++ " " ++
  pad2 (jsGetHours t) ++ ":" ++ pad2 (jsGetMinutes t) ++ ":" ++ pad2 (jsGetSeconds t) ++
  " GMT+0000 (Coordinated Universal Time)"

/-- Accumulate decimal digits; any non-digit character makes the parse fail. -/
def parseDigitsGo : List Char → Int → Option Int
  | [], acc => some acc
  | c :: rest, acc =>
    if c.isDigit then parseDigitsGo rest (acc * 10 + ((c.toNat - 48 : Nat) : Int)) else none

/-- Parse a non-empty all-digit character list. -/
def parseDigits : List Char → Option Int
  | [] => none
  | c :: rest => parseDigitsGo (c :: rest) 0

/-- JavaScript `ToNumber` on a string, for the integer-literal fragment that
can occur in this program: trim whitespace, empty means 0, then an optional
sign followed by decimal digits; anything else (in particular every
`Date.prototype.toString` output, which starts with a letter) is NaN, encoded
as `none`. -/
def jsStringToNumber (s : String) : Option Int :=
  let cs := ((s.data.dropWhile Char.isWhitespace).reverse.dropWhile Char.isWhitespace).reverse
  match cs with
  | [] => some 0
  | c :: rest =>
    if c = '+' then parseDigits rest
    else if c = '-' then (parseDigits rest).map (fun n => -n)
    else parseDigits (c :: rest)

/-- `new Date(v)` for a `JSVal`: a number is taken as a timestamp; the strings
that reach this constructor in the program are `toString` outputs with decimal
digits appended, which `Date.parse` rejects, so a string yields an invalid
date (`none`). -/
def jsNewDateVal : JSVal → Option Int
  | .num n => some n
  | .str _ => none

/-- String representation of `new Date(v)`: `toString` of the timestamp, or
`Invalid Date`. -/
def jsDateShow (v : JSVal) : String :=
  match jsNewDateVal v with
  | some t => dateToString t
  | none => "Invalid Date"

/-- The source expression `new Date(x) + repeatMs`: `+` applies ToPrimitive
with the default hint to the `Date`, obtaining a string, and therefore
concatenates, yielding a string. -/
def jsAddDateValNum (v : JSVal) (k : Int) : JSVal := .str (jsDateShow v ++ toString k)

/-- The loop guard `repeatedEvent.start <= new Date(period.end)`: a relational
comparison converts the `Date` to its timestamp; a string on the left is
converted with `ToNumber`, and a NaN comparison is false. -/
def jsLeDateVal (v : JSVal) (t : Int) : Bool :=
  match v with
  | .num n => decide (n ≤ t)
  | .str s =>
    match jsStringToNumber s with
    | some n => decide (n ≤ t)
    | none => false

/-- An `Event` instance as pushed into a result list by `#repeateRule` and
`getWeekListOfEvents`.  Modelled from the spec: `models/Event.js` is not among
the sources; per spec section 3 the Event constructor copies the event-shaped
record fields, including the transient `checkRepeat`.  `start` and `end` are
`JSVal` because `#repeateRule` stores concatenated strings in them. -/
structure WeekEntry where
  id : String
  description : String
  start : JSVal
  «end» : JSVal
  color : String
  «repeat» : String
  checkRepeat : String
deriving Repr, DecidableEq

/-- `EventService.#getRepeatTimeMs` (SettingsService.js lines 716-722). -/
def getRepeatTimeMs (event : JsEvent) : Int :=
  if event.«repeat» = "day" then 24 * HOUR_MS
  else if event.«repeat» = "week" then 7 * 24 * HOUR_MS
  else if event.«repeat» = "month" then getMsToSameDateInNextMonth event.start
  else 0

/-- `#getMsToSameDateInNextMonth(repeatedEvent)` as called inside the loop of
`#repeateRule`, where `repeatedEvent.start` is a `JSVal`: an invalid date
propagates NaN through the computation (modelled as 0; the call site is
unreachable because the loop guard is never true on a string start). -/
def monthStepVal (v : JSVal) : Int :=
  match jsNewDateVal v with
  | some t => getMsToSameDateInNextMonth t
  | none => 0

/-- The `while` loop of `EventService.#repeateRule` (SettingsService.js lines
517-524): while `repeatedEvent.start <= new Date(period.end)`, push a copy of
the working record, recompute the step for monthly events, and advance both
endpoints with `new Date(x) + repeatMs` (string concatenation).  `fuel` bounds
the iteration count. -/
def repeateRuleGo (isMonth : Bool) (event : JsEvent) (periodEnd : Int) :
    Nat → Int → JSVal → JSVal → List WeekEntry
  | 0, _, _, _ => []
  | fuel + 1, stepMs, st, en =>
    if jsLeDateVal st periodEnd then
      let occ : WeekEntry :=
        ⟨event.id, event.description, st, en, event.color, "never", event.«repeat»⟩
      let stepMs2 := if isMonth then monthStepVal st else stepMs
      occ :: repeateRuleGo isMonth event periodEnd fuel stepMs2
        (jsAddDateValNum st stepMs2) (jsAddDateValNum en stepMs2)
    else []

/-- `EventService.#repeateRule(event, period, listToAdd)` (SettingsService.js
lines 509-526), returning the entries appended to `listToAdd`.  The working
copy gets `checkRepeat := event.repeat`, `repeat := 'never'`, and start and end
advanced one step by `new Date(event.start) + repeatMs`, which concatenates
into a string. -/
def repeateRule (fuel : Nat) (event : JsEvent) (periodEnd : Int) : List WeekEntry :=
  let repeatMs := getRepeatTimeMs event
  if event.«repeat» ≠ "never" then
    repeateRuleGo (event.«repeat» = "month") event periodEnd fuel repeatMs
      (jsAddDateValNum (.num event.start) repeatMs)
      (jsAddDateValNum (.num event.«end») repeatMs)
  else []

/-- `EventService.getWeekRange` (SettingsService.js lines 770-787): Monday of
the week of `date` at midnight, and that Monday plus seven days at midnight
(the `sunday` variable of the source). -/
def getWeekRange (date : Int) : Int × Int :=
  let dayOfWeek := jsGetDay date
  let diffToMonday := if dayOfWeek = 0 then -6 else 1 - dayOfWeek
  let monday1 := jsSetDate date (jsGetDate date + diffToMonday)
  let monday := jsSetMidnight monday1
  let sunday1 := jsSetMidnight monday1
  let sunday := jsSetDate sunday1 (jsGetDate monday + 7)
  (monday, sunday)

/-- Sort key of the comparator `(a, b) => new Date(a.start) - new Date(b.start)`;
every entry that actually reaches the sort has a numeric start (an invalid
date would give a NaN comparator, modelled as 0). -/
def sortKeyVal (v : JSVal) : Int :=
  match jsNewDateVal v with
  | some n => n
  | none => 0

/-- Stable insertion used to model `Array.prototype.sort` (stable, ascending
by start). -/
def insertByStart (x : WeekEntry) : List WeekEntry → List WeekEntry
  | [] => [x]
  | y :: rest =>
    if sortKeyVal x.start < sortKeyVal y.start then x :: y :: rest
    else y :: insertByStart x rest

/-- `resultList.sort((a, b) => new Date(a.start) - new Date(b.start))`. -/
def sortByStart (l : List WeekEntry) : List WeekEntry :=
  l.foldl (fun acc x => insertByStart x acc) []

/-- The scan loop of `EventService.#autoDeleteEvents` (SettingsService.js
lines 300-317): validate each entry (`#checkEventFields` throws on a bad one)
and keep those the `#deleteFilter` does not mark; the kept list is persisted. -/
def autoDeleteScan (autoDelete : String) (now : Int) :
    List JsEvent → Except String (List JsEvent)
  | [] => .ok []
  | ev :: rest =>
    match checkEventFields ev with
    | .error e => .error e
    | .ok _ =>
      match autoDeleteScan autoDelete now rest with
      | .error e => .error e
      | .ok tail => .ok (if deleteFilter now ev autoDelete then tail else ev :: tail)

/-- Truthiness of the source expression `new Date(ev.start <= week.end)`: the
comparison produces a boolean, `new Date(boolean)` produces a `Date` object
(0 or 1 milliseconds after the epoch), and every object is truthy — so the
second conjunct of the membership test is always true. -/
def jsDateTruthy (_b : Bool) : Bool := true

/-- The per-event loop of `EventService.getWeekListOfEvents` (SettingsService.js
lines 269-278): set `checkRepeat`, expand repeating events with `#repeateRule`,
and include a non-repeating event when
`new Date(ev.start) >= week.start && new Date(ev.start <= week.end)` holds. -/
def weekScan (fuel : Nat) (week : Int × Int) : List JsEvent → List WeekEntry
  | [] => []
  | ev0 :: rest =>
    let ev := { ev0 with checkRepeat := ev0.«repeat» }
    let adds :=
      if ev.«repeat» ≠ "never" then
        repeateRule fuel ev week.2
      else
        if decide (ev.start ≥ week.1) && jsDateTruthy (decide (ev.start ≤ week.2)) then
          [⟨ev.id, ev.description, .num ev.start, .num ev.«end», ev.color, ev.«repeat»,
            ev.checkRepeat⟩]
        else []
    adds ++ weekScan fuel week rest

/-- `EventService.getWeekListOfEvents(date)` (SettingsService.js lines
264-281): retention sweep, week window, per-event scan, sort ascending by
start.  The stored collection, the `autoDelete` setting and `now` replace the
file and settings reads. -/
def getWeekListOfEvents (fuel : Nat) (autoDelete : String) (now : Int)
    (stored : List JsEvent) (date : Int) : Except String (List WeekEntry) :=
  match autoDeleteScan autoDelete now stored with
  | .error e => .error e
  | .ok kept => .ok (sortByStart (weekScan fuel (getWeekRange date) kept))

/-- JavaScript `%` on the nonnegative multiples of one half that occur here:
`a - b * floor(a / b)` (for nonnegative `a` and positive `b` the float `%`,
which truncates toward zero, agrees with floor). -/
def jsFmod (a b : ℚ) : ℚ := a - b * (⌊a / b⌋ : ℚ)

/-- `EventService.convertTimeToAngle` (SettingsService.js lines 812-822), on a
millisecond timestamp: `(getHours() * 60 + getMinutes()) * 0.5`, reduced by
`% 360` when at least 360. -/
def convertTimeToAngleMs (time : Int) : ℚ :=
  let result : ℚ := ((jsGetHours time * 60 + jsGetMinutes time : Int) : ℚ) * (1 / 2)
  if result ≥ 360 then jsFmod result 360 else result

/-- The `{h, m}` clock-time records used by `calculate.js`. -/
structure ClockTime where
  h : Int
  m : Int
deriving Repr, DecidableEq

/-- `convertTimeToAngle` of `SectographApp/utils/calculate.js` (lines 9-15):
`(time.h * 60 + time.m) * 0.5`, reduced by `% 360` when at least 360. -/
def convertTimeToAngle (time : ClockTime) : ℚ :=
  let result : ℚ := ((time.h * 60 + time.m : Int) : ℚ) * (1 / 2)
  if result ≥ 360 then jsFmod result 360 else result

/-- An event as consumed by `calculateAngles` of calculate.js. -/
structure CalcEvent where
  start : ClockTime
  «end» : ClockTime
deriving Repr, DecidableEq

/-- `calculateAngles` of `SectographApp/utils/calculate.js` (lines 1-7):
raw angles, then `startAngle - 360` when the raw start angle exceeds the end
angle. -/
def calculateAngles (event : CalcEvent) : ℚ × ℚ :=
  let startAngle := convertTimeToAngle event.start
  let endAngle := convertTimeToAngle event.«end»
  (if startAngle > endAngle then startAngle - 360 else startAngle, endAngle)

/-- `EventService.#calculateEventAngles` (SettingsService.js lines 690-714).
The source uses `if (start < deleteTime) ... else if (end > now + 10h) ...`:
the two clips are mutually exclusive, and the `else if` branch calls
`EventsManager.convertTimeToAngle` — an identifier that does not exist (the
class is `EventService`), so taking that branch throws a `ReferenceError`,
modelled as the error case. -/
def calculateEventAngles (event : JsEvent) (timeNow : Int) : Except String (ℚ × ℚ) :=
  let startAngle := convertTimeToAngleMs event.start
  let endAngle := convertTimeToAngleMs event.«end»
  let deleteTime := timeNow - 2 * HOUR_MS
  if event.start < deleteTime then
    let clipped := convertTimeToAngleMs deleteTime
    .ok (if clipped > endAngle then clipped - 360 else clipped, endAngle)
  else if event.«end» > timeNow + 10 * HOUR_MS then
    .error "ReferenceError: EventsManager is not defined"
  else
    .ok (if startAngle > endAngle then startAngle - 360 else startAngle, endAngle)

/-- An event annotated with display angles, as consumed by
`EventService.isThisEvent`. -/
structure AngledEvent where
  startAngle : ℚ
  endAngle : ℚ
deriving Repr, DecidableEq

/-- `EventService.isThisEvent(x, y, event)` (SettingsService.js lines 831-846).
The distance guard `Math.sqrt((x-240)**2 + (y-240)**2) > 200` is expressed on
squares (the square root is strictly monotone and both sides are exact).
`atanDeg x y` abstracts the transcendental
`Math.atan2(240 - y, x - 240) * (180 / Math.PI)`. -/
def isThisEvent (atanDeg : Int → Int → ℚ) (x y : Int) (event : AngledEvent) : Bool :=
  if (x - 240) ^ 2 + (y - 240) ^ 2 > 200 ^ 2 then false
  else
    let pointAngle0 := 90 - atanDeg x y
    let pointAngle := if pointAngle0 < 0 then 360 + pointAngle0 else pointAngle0
    if event.startAngle ≤ event.endAngle then
      let pa := if event.startAngle < 0 ∧ pointAngle > 270 then pointAngle - 360 else pointAngle
      decide (pa ≥ event.startAngle ∧ pa ≤ event.endAngle)
    else
      decide (pointAngle ≥ event.startAngle ∨ pointAngle ≤ event.endAngle)

/-- The non-wrapping branch of `isThisEvent` as a standalone function: the
distance guard and then the `startAngle <= endAngle` branch body only. -/
def isThisEventNonWrap (atanDeg : Int → Int → ℚ) (x y : Int) (event : AngledEvent) : Bool :=
  if (x - 240) ^ 2 + (y - 240) ^ 2 > 200 ^ 2 then false
  else
    let pointAngle0 := 90 - atanDeg x y
    let pointAngle := if pointAngle0 < 0 then 360 + pointAngle0 else pointAngle0
    let pa := if event.startAngle < 0 ∧ pointAngle > 270 then pointAngle - 360 else pointAngle
    decide (pa ≥ event.startAngle ∧ pa ≤ event.endAngle)

/-- Shifting a civil date by whole 400-year eras shifts its day number by whole
146097-day eras. -/
theorem daysFromCivil_shift (y m d k : Int) :
    daysFromCivil (y + 400 * k) m d = daysFromCivil y m d + 146097 * k := by
  dsimp only [daysFromCivil]
  split <;> omega

/-- Shifting a day number by whole eras shifts the civil year by 400 per era
and fixes month and day. -/
theorem civilFromDays_shift (z k : Int) :
    civilFromDays (z + 146097 * k) =
      ((civilFromDays z).1 + 400 * k, (civilFromDays z).2.1, (civilFromDays z).2.2) := by
  dsimp only [civilFromDays]
  have h1 : (z + 146097 * k + 719468) % 146097 = (z + 719468) % 146097 := by omega
  have h2 : (z + 146097 * k + 719468) / 146097 = (z + 719468) / 146097 + k := by omega
  rw [h1, h2]
  refine Prod.ext ?_ rfl
  simp only
  ring

/-- The leap-year predicate has period 400. -/
theorem isLeapYearG_shift (y k : Int) : isLeapYearG (y + 400 * k) = isLeapYearG y := by
  simp only [isLeapYearG, decide_eq_decide]
  omega

/-- February lengths have period 400. -/
theorem febDaysG_shift (y k : Int) : febDaysG (y + 400 * k) = febDaysG y := by
  simp only [febDaysG, isLeapYearG_shift]

/-- The day argument of `daysFromCivil` is carried linearly. -/
theorem daysFromCivil_day_linear (y m d : Int) :
    daysFromCivil y m d = daysFromCivil y m 1 + (d - 1) := by
  dsimp only [daysFromCivil]
  split <;> omega

set_option maxHeartbeats 4000000 in
set_option maxRecDepth 100000 in
/-- Round-trip facts for one 400-year era, checked exhaustively: the civil date
of the day number of January 31 is January 31; the day before March 1 is the
last day of February with the correct length; and that last day of February is
one day before March 1 in day numbers. -/
theorem c6_base : ∀ r : Nat, r < 400 →
    civilFromDays (daysFromCivil (r : Int) 1 31) = ((r : Int), 1, 31) ∧
    civilFromDays (daysFromCivil (r : Int) 3 1 - 1) = ((r : Int), 2, febDaysG (r : Int)) ∧
    daysFromCivil (r : Int) 2 (febDaysG (r : Int)) = daysFromCivil (r : Int) 3 1 - 1 := by
  decide

/-- Every integer year splits into a 400-year era and a residue below 400. -/
theorem exists_mod400 (y : Int) : ∃ q : Int, ∃ r : Nat, r < 400 ∧ y = 400 * q + (r : Int) := by
  refine ⟨y / 400, (y % 400).toNat, ?_, ?_⟩
  · omega
  · omega

/-- The civil date of the day number of January 31 of year `y` is January 31
of year `y`, for every integer year. -/
theorem civil_jan31 (y : Int) : civilFromDays (daysFromCivil y 1 31) = (y, 1, 31) := by
  obtain ⟨q, r, hr, rfl⟩ := exists_mod400 y
  have hb := (c6_base r hr).1
  have h1 : (400 * q + (r : Int)) = (r : Int) + 400 * q := by ring
  rw [h1, daysFromCivil_shift, civilFromDays_shift, hb]

/-- The day before March 1 of year `y` is the last day of February of year `y`,
for every integer year. -/
theorem civil_feb_last (y : Int) :
    civilFromDays (daysFromCivil y 3 1 - 1) = (y, 2, febDaysG y) := by
  obtain ⟨q, r, hr, rfl⟩ := exists_mod400 y
  have hb := (c6_base r hr).2.1
  have h1 : (400 * q + (r : Int)) = (r : Int) + 400 * q := by ring
  have h2 : daysFromCivil ((r : Int) + 400 * q) 3 1 - 1 =
      (daysFromCivil (r : Int) 3 1 - 1) + 146097 * q := by
    rw [daysFromCivil_shift]; ring
  rw [h1, h2, civilFromDays_shift, hb, febDaysG_shift]

/-- The last day of February is one day before March 1 in day numbers, for
every integer year. -/
theorem feb_step (y : Int) :
    daysFromCivil y 2 (febDaysG y) = daysFromCivil y 3 1 - 1 := by
  obtain ⟨q, r, hr, rfl⟩ := exists_mod400 y
  have hb := (c6_base r hr).2.2
  have h1 : (400 * q + (r : Int)) = (r : Int) + 400 * q := by ring
  rw [h1, febDaysG_shift, daysFromCivil_shift, daysFromCivil_shift, hb]
  ring

/-- Bounds of the time-to-angle conversion of calculate.js: within one day the
result lies in `[0, 360)`. -/
theorem convertTimeToAngle_bounds (t : ClockTime) (hh0 : 0 ≤ t.h) (hh : t.h < 24)
    (hm0 : 0 ≤ t.m) (hm : t.m < 60) :
    0 ≤ convertTimeToAngle t ∧ convertTimeToAngle t < 360 := by
  unfold convertTimeToAngle
  have hn0 : (0 : ℚ) ≤ ((t.h * 60 + t.m : Int) : ℚ) := by
    push_cast
    have : (0 : ℚ) ≤ (t.h : ℚ) * 60 + (t.m : ℚ) := by
      have h1 : (0 : ℚ) ≤ (t.h : ℚ) := by exact_mod_cast hh0
      have h2 : (0 : ℚ) ≤ (t.m : ℚ) := by exact_mod_cast hm0
      linarith
    linarith
  have hn1 : ((t.h * 60 + t.m : Int) : ℚ) ≤ 1439 := by
    have : (t.h * 60 + t.m : Int) ≤ 1439 := by omega
    exact_mod_cast this
  set r : ℚ := ((t.h * 60 + t.m : Int) : ℚ) * (1 / 2) with hr
  have hr0 : 0 ≤ r := by rw [hr]; positivity
  have hr1 : r < 720 := by rw [hr]; linarith
  dsimp only
  split
  · rename_i hge
    have hfl : ⌊r / 360⌋ = 1 := by
      rw [Int.floor_eq_iff]
      constructor
      · push_cast
        rw [le_div_iff₀ (by norm_num)]
        linarith
      · push_cast
        rw [div_lt_iff₀ (by norm_num)]
        linarith
    unfold jsFmod
    rw [hfl]
    push_cast
    constructor <;> linarith
  · rename_i hlt
    push_neg at hlt
    exact ⟨hr0, hlt⟩

/-- On an event whose start angle does not exceed its end angle, the hit test
agrees with its non-wrapping branch at every point and every value of the
transcendental point angle. -/
theorem isThisEvent_eq_nonwrap_of_le (a : AngledEvent) (h : a.startAngle ≤ a.endAngle)
    (atanDeg : Int → Int → ℚ) (x y : Int) :
    isThisEvent atanDeg x y a = isThisEventNonWrap atanDeg x y a := by
  unfold isThisEvent isThisEventNonWrap
  by_cases hd : (x - 240) ^ 2 + (y - 240) ^ 2 > 200 ^ 2
  · rw [if_pos hd, if_pos hd]
  · rw [if_neg hd, if_neg hd]
    dsimp only
    rw [if_pos h]

/-- If the current id is fresh, or some generated candidate within the fuel
bound is fresh, the id-generation loop ends on a fresh id. -/
theorem generatorIdLoop_not_mem (allIds : List String) (gen : Nat → String) :
    ∀ fuel k cur, (cur ∉ allIds ∨ ∃ j, k ≤ j ∧ j < k + fuel ∧ gen j ∉ allIds) →
    generatorIdLoop allIds gen fuel k cur ∉ allIds := by
  intro fuel
  induction fuel with
  | zero =>
    intro k cur h
    simp only [generatorIdLoop]
    rcases h with h | ⟨j, hj1, hj2, _⟩
    · exact h
    · omega
  | succ n ih =>
    intro k cur h
    simp only [generatorIdLoop]
    by_cases hc : allIds.contains cur
    · rw [if_pos hc]
      apply ih
      have hcur : cur ∈ allIds := by
        simpa [List.contains, List.elem_eq_mem] using hc
      rcases h with h | ⟨j, hj1, hj2, hj3⟩
      · exact absurd hcur h
      · by_cases hjk : j = k
        · left
          rw [← hjk]
          exact hj3
        · right
          exact ⟨j, by omega, by omega, hj3⟩
    · rw [if_neg hc]
      intro hmem
      exact hc (by simpa [List.contains, List.elem_eq_mem] using hmem)

/-- Concrete evaluation: the angle of 10:00. -/
theorem convertTimeToAngleMs_36000000 : convertTimeToAngleMs 36000000 = 300 := by
  have hH : jsGetHours 36000000 = 10 := by decide
  have hM : jsGetMinutes 36000000 = 0 := by decide
  simp only [convertTimeToAngleMs, hH, hM]
  norm_num

/-- Concrete evaluation: the angle of 24:00 (midnight of the next day). -/
theorem convertTimeToAngleMs_86400000 : convertTimeToAngleMs 86400000 = 0 := by
  have hH : jsGetHours 86400000 = 0 := by decide
  have hM : jsGetMinutes 86400000 = 0 := by decide
  simp only [convertTimeToAngleMs, hH, hM]
  norm_num

/-- Concrete evaluation: the angle of 22:00 is 660 degrees reduced mod 360. -/
theorem convertTimeToAngleMs_79200000 : convertTimeToAngleMs 79200000 = 300 := by
  have hH : jsGetHours 79200000 = 22 := by decide
  have hM : jsGetMinutes 79200000 = 0 := by decide
  simp only [convertTimeToAngleMs, hH, hM]
  norm_num [jsFmod]

/-- C1: the claim states that `#repeateRule` appends, for a stored `day` or
`week` event, the successive step-shifted occurrences up to the window end.
The code instead appends nothing: `new Date(event.start) + repeatMs`
concatenates a date string with a number, and the loop guard compares that
non-numeric string with the window end, which is a NaN comparison and
therefore false.  Evaluated here at a daily event inside a seven-day window
(the claim expects seven occurrences) and a weekly event inside a thirty-day
window (the claim expects four). -/
theorem repeateRule_emits_nothing :
    repeateRule 100 ⟨"e1", "Daily standup", 0, 3600000, "0x000000", "day", ""⟩
      (7 * DAY_MS) = [] ∧
    repeateRule 100 ⟨"e2", "Weekly sync", 0, 3600000, "0x000000", "week", ""⟩
      (30 * DAY_MS) = [] := by
  exact ⟨rfl, rfl⟩

/-- C2: the claim states that a valid non-repeating event is listed for a week
if and only if its start lies in the window from Monday 00:00 to the next
Monday 00:00.  The code checks only the lower bound: the upper-bound operand
is `new Date(ev.start <= week.end)`, a Date built from a boolean, which is
always truthy.  Evaluated here for reference date 0 (Thursday 1970-01-01,
whose week window ends at the Monday 345600000): an event starting at
864000000, five days past the window end, is still returned. -/
theorem getWeekListOfEvents_missing_upper_bound :
    (getWeekRange 0).2 = 345600000 ∧
    getWeekListOfEvents 10 "never" 0
      [⟨"e1", "Out of week", 864000000, 867600000, "0x000000", "never", ""⟩] 0 =
    .ok [⟨"e1", "Out of week", .num 864000000, .num 867600000, "0x000000", "never",
      "never"⟩] := by
  exact ⟨rfl, rfl⟩

/-- C3: the claim states that the start clip (start more than 2h in the past)
and the end clip (end more than 10h in the future) each apply whenever their
own condition holds, including together.  The code uses `else if`, so when
both conditions hold only the start is clipped, and the end-clip branch calls
the undefined identifier `EventsManager`, so when it alone holds the call
throws.  Evaluated at `now` = 12:00 on day 0: an event from 09:00 to 24:00
has both conditions true and gets `.ok (-60, 0)` — the end angle stays the raw
0 instead of the 300 of `now + 10h` (22:00); an event from 12:00 to 24:00 has
only the end condition true and the call errors. -/
theorem calculateEventAngles_clip_divergence :
    (calculateEventAngles ⟨"e1", "Long past-future", 32400000, 86400000, "0x000000",
        "never", ""⟩ 43200000 = .ok (-60, 0) ∧
      (86400000 : Int) > 43200000 + 10 * HOUR_MS ∧
      convertTimeToAngleMs (43200000 + 10 * HOUR_MS) = 300 ∧ (0 : ℚ) ≠ 300) ∧
    calculateEventAngles ⟨"e2", "Future only", 43200000, 86400000, "0x000000",
        "never", ""⟩ 43200000 =
      .error "ReferenceError: EventsManager is not defined" := by
  have e36 : (43200000 : Int) - 2 * 3600000 = 36000000 := by decide
  have e79 : (43200000 : Int) + 10 * HOUR_MS = 79200000 := by decide
  refine ⟨⟨?_, by decide, ?_, by norm_num⟩, ?_⟩
  · simp only [calculateEventAngles, HOUR_MS, e36, convertTimeToAngleMs_36000000,
      convertTimeToAngleMs_86400000]
    norm_num
  · rw [e79, convertTimeToAngleMs_79200000]
  · simp only [calculateEventAngles, HOUR_MS, e36]
    norm_num

/-- C4: the claim states that an entry failing shape validation during the
`editEvent` scan is passed through unchanged and the edit still completes.
The code calls `#checkEventFields`, which throws on a bad entry (it never
returns false), and `editEvent` re-throws, so the edit aborts and nothing is
persisted.  Evaluated at a collection whose second entry has a
whitespace-only description while the third entry matches the edited id. -/
theorem editEvent_aborts_on_invalid_entry :
    editEvent
      [⟨"a", "Valid A", 0, 10, "0x000000", "never", ""⟩,
       ⟨"b", "   ", 0, 10, "0x000000", "never", ""⟩,
       ⟨"c", "Valid C", 0, 10, "0x000000", "never", ""⟩]
      ⟨"c", "Edited C", 5, 15, "0x000000", "never", ""⟩ =
    .error "Invalid description: must be a non-empty string" := by rfl

/-- C5 counterexample: the claim states that `createNewEvent` assigns a fresh
service-generated id, never the caller-supplied one.  Creating into an empty
collection keeps the caller-supplied id `caller-id` unchanged: the
`#generateEventId` loop re-rolls only on collision. -/
theorem createNewEvent_keeps_caller_id :
    createNewEvent 5 (fun k => "gen" ++ toString k) []
      ⟨"caller-id", "Same fields", 0, 10, "0x000000", "never", ""⟩ =
    .ok [⟨"caller-id", "Same fields", 0, 10, "0x000000", "never", ""⟩] := by rfl

/-- C5 (amended): `createNewEvent` keeps the caller-supplied id when it
collides with no stored id and otherwise regenerates in a loop until it finds
no collision; therefore, whenever the stored ids are distinct and the
generator produces some fresh id within the fuel bound (or the caller id is
already fresh), the create succeeds, the assigned id collides with no stored
id, and id uniqueness across the whole stored collection is preserved — in
particular two events created in sequence with identical fields receive
distinct ids. -/
theorem createNewEvent_amended (fuel : Nat) (gen : Nat → String) (stored : List JsEvent)
    (event : JsEvent) (hval : checkEventFields event = .ok true)
    (hnodup : (stored.map JsEvent.id).Nodup)
    (hfresh : event.id ∉ stored.map JsEvent.id ∨
              ∃ k, k < fuel ∧ gen k ∉ stored.map JsEvent.id) :
    createNewEvent fuel gen stored event =
      .ok (stored ++ [{ event with id := generateEventId fuel gen event stored }]) ∧
    generateEventId fuel gen event stored ∉ stored.map JsEvent.id ∧
    ((stored ++ [{ event with id := generateEventId fuel gen event stored }]).map
        JsEvent.id).Nodup := by
  have hfree : generateEventId fuel gen event stored ∉ stored.map JsEvent.id := by
    apply generatorIdLoop_not_mem
    rcases hfresh with h | ⟨k, hk, hg⟩
    · left; exact h
    · right; exact ⟨k, by omega, by omega, hg⟩
  refine ⟨?_, hfree, ?_⟩
  · unfold createNewEvent
    rw [hval]
  · simp only [List.map_append, List.map_cons, List.map_nil]
    rw [List.nodup_append]
    refine ⟨hnodup, List.nodup_singleton _, ?_⟩
    intro a ha hb
    rw [List.mem_singleton] at hb
    subst hb
    exact hfree ha

/-- Witness for C5 (amended): a second event created with the same fields and
the same caller id as a stored one receives an id that collides with nothing
in the store. -/
theorem createNewEvent_amended_witness :
    checkEventFields ⟨"a", "Dup", 0, 10, "0x000000", "never", ""⟩ = .ok true ∧
    generateEventId 3 (fun _ => "b") ⟨"a", "Dup", 0, 10, "0x000000", "never", ""⟩
        [⟨"a", "First", 0, 10, "0x000000", "never", ""⟩] ∉
      ([⟨"a", "First", 0, 10, "0x000000", "never", ""⟩] : List JsEvent).map JsEvent.id :=
  ⟨by rfl,
   (createNewEvent_amended 3 (fun _ => "b")
      [⟨"a", "First", 0, 10, "0x000000", "never", ""⟩]
      ⟨"a", "Dup", 0, 10, "0x000000", "never", ""⟩
      (by rfl) (by decide) (Or.inr ⟨0, by omega, by decide⟩)).2.1⟩

/-- C6 counterexample: the claim quantifies over every monthly occurrence
starting on January 31.  For a start on January 31 of year 0 — a leap year, so
the claim requires landing on February 29 of that year — the
`new Date(year, month, day)` constructor remaps the two-digit year 0 to 1900,
and the step lands on February 28, 1900. -/
theorem getMsToSameDateInNextMonth_year0_remap :
    isLeapYearG 0 = true ∧
    civilFromDays (dayNumberOf (daysFromCivil 0 1 31 * DAY_MS +
      getMsToSameDateInNextMonth (daysFromCivil 0 1 31 * DAY_MS))) = (1900, 2, 28) := by
  decide

/-- C6 (amended): for every monthly occurrence whose start falls on January 31
of a year outside `0..99` (those years are remapped to `1900..1999` by the
JavaScript `Date(year, ...)` constructor), `#getMsToSameDateInNextMonth`
returns the millisecond delta to midnight of the last day of February of the
same year — February 28 in a non-leap year and February 29 in a leap year,
i.e. the same day of month clamped to the length of the following month — so
the next occurrence lands on that date. -/
theorem getMsToSameDateInNextMonth_jan31 (y tod : Int) (hy : y < 0 ∨ 100 ≤ y)
    (h0 : 0 ≤ tod) (h1 : tod < DAY_MS) :
    getMsToSameDateInNextMonth (daysFromCivil y 1 31 * DAY_MS + tod) =
      daysFromCivil y 2 (febDaysG y) * DAY_MS - (daysFromCivil y 1 31 * DAY_MS + tod) ∧
    civilFromDays (dayNumberOf (daysFromCivil y 1 31 * DAY_MS + tod +
        getMsToSameDateInNextMonth (daysFromCivil y 1 31 * DAY_MS + tod))) =
      (y, 2, febDaysG y) := by
  have hday : dayNumberOf (daysFromCivil y 1 31 * DAY_MS + tod) = daysFromCivil y 1 31 := by
    simp only [dayNumberOf, DAY_MS] at *
    omega
  have hfy : mkFullYear y = y := by
    simp only [mkFullYear]
    rw [if_neg]
    omega
  have hgd : jsGetDate (daysFromCivil y 1 31 * DAY_MS + tod) = 31 := by
    simp only [jsGetDate, hday, civil_jan31]
  have hgm : jsGetMonth (daysFromCivil y 1 31 * DAY_MS + tod) = 0 := by
    simp only [jsGetMonth, hday, civil_jan31]
    decide
  have hgy : jsGetFullYear (daysFromCivil y 1 31 * DAY_MS + tod) = y := by
    simp only [jsGetFullYear, hday, civil_jan31]
  have h212 : (2 : Int) / 12 = 0 := by decide
  have h2m12 : (2 : Int) % 12 = 2 := by decide
  have hmk20 : jsNewDateYMD y 2 0 = (daysFromCivil y 3 1 - 1) * DAY_MS := by
    simp only [jsNewDateYMD, mkDayNumber, hfy, h212, h2m12, add_zero]
    have h23 : (2 : Int) + 1 = 3 := by decide
    rw [h23]
    ring
  have hdimGet : jsGetDate (jsNewDateYMD y 2 0) = febDaysG y := by
    rw [hmk20]
    simp only [jsGetDate, dayNumberOf, DAY_MS]
    have : (daysFromCivil y 3 1 - 1) * 86400000 / 86400000 = daysFromCivil y 3 1 - 1 := by
      omega
    rw [this, civil_feb_last]
  have hfeb : febDaysG y = 28 ∨ febDaysG y = 29 := by
    simp only [febDaysG]
    split
    · right; rfl
    · left; rfl
  have hmin : min (31 : Int) (febDaysG y) = febDaysG y := by
    rcases hfeb with h | h <;> rw [h] <;> decide
  have hnext : jsNewDateYMD y 1 (febDaysG y) = daysFromCivil y 2 (febDaysG y) * DAY_MS := by
    have h112 : (1 : Int) / 12 = 0 := by decide
    have h1m12 : (1 : Int) % 12 + 1 = 2 := by decide
    simp only [jsNewDateYMD, mkDayNumber, hfy, h112, h1m12, add_zero]
    rw [daysFromCivil_day_linear y 2 (febDaysG y)]
  have hmain : getMsToSameDateInNextMonth (daysFromCivil y 1 31 * DAY_MS + tod) =
      daysFromCivil y 2 (febDaysG y) * DAY_MS - (daysFromCivil y 1 31 * DAY_MS + tod) := by
    dsimp only [getMsToSameDateInNextMonth]
    rw [hgd, hgm, hgy]
    have hifm : (if (0 : Int) + 1 > 11 then (0 : Int) else 0 + 1) = 1 := by decide
    have hify : (if (0 : Int) + 1 > 11 then y + 1 else y) = y := if_neg (by decide)
    rw [hifm, hify]
    have h11 : (1 : Int) + 1 = 2 := by decide
    rw [h11, hdimGet, hmin, hnext]
  refine ⟨hmain, ?_⟩
  rw [hmain]
  have harg : daysFromCivil y 1 31 * DAY_MS + tod +
      (daysFromCivil y 2 (febDaysG y) * DAY_MS - (daysFromCivil y 1 31 * DAY_MS + tod)) =
      daysFromCivil y 2 (febDaysG y) * DAY_MS := by ring
  rw [harg]
  have hdn : dayNumberOf (daysFromCivil y 2 (febDaysG y) * DAY_MS) =
      daysFromCivil y 2 (febDaysG y) := by
    simp only [dayNumberOf, DAY_MS]
    omega
  rw [hdn, feb_step, civil_feb_last]

/-- Witness for C6 (amended): January 31, 2024 (a leap year), one hour past
midnight, steps to the timestamp of February 29, 2024. -/
theorem getMsToSameDateInNextMonth_jan31_witness :
    ((2024 : Int) < 0 ∨ (100 : Int) ≤ 2024) ∧ (0 : Int) ≤ 3600000 ∧
    getMsToSameDateInNextMonth (daysFromCivil 2024 1 31 * DAY_MS + 3600000) =
      daysFromCivil 2024 2 (febDaysG 2024) * DAY_MS -
        (daysFromCivil 2024 1 31 * DAY_MS + 3600000) :=
  ⟨Or.inr (by omega), by omega,
   (getMsToSameDateInNextMonth_jan31 2024 3600000 (Or.inr (by omega)) (by omega)
      (by decide)).1⟩

/-- C7: for every valid event (its repeat tag is one of the four allowed
values), every setting and every `now`, the retention filter marks the event
for purging exactly when it is non-repeating and `now` minus its end strictly
exceeds 24 hours, 7 days or 31 days for the settings `day`, `week`, `month`
respectively; any other setting (including `never`) purges nothing, and
repeating events are never purged. -/
theorem deleteFilter_spec (now : Int) (event : JsEvent) (autoDelete : String)
    (hv : event.«repeat» = "never" ∨ event.«repeat» = "day" ∨
          event.«repeat» = "week" ∨ event.«repeat» = "month") :
    deleteFilter now event autoDelete = true ↔
      (event.«repeat» = "never" ∧
        ((autoDelete = "day" ∧ now - event.«end» > 24 * HOUR_MS) ∨
         (autoDelete = "week" ∧ now - event.«end» > 7 * 24 * HOUR_MS) ∨
         (autoDelete = "month" ∧ now - event.«end» > 31 * 24 * HOUR_MS))) := by
  simp only [deleteFilter, HOUR_MS]
  rcases hv with h | h | h | h <;> rw [h] <;> split_ifs <;> simp_all <;> omega

/-- Witness for C7: under the `day` setting, a non-repeating event that ended
24 hours plus one millisecond ago is marked for purging. -/
theorem deleteFilter_spec_witness :
    ((⟨"a", "x", 0, 0, "0x000000", "never", ""⟩ : JsEvent).«repeat» = "never" ∨
     (⟨"a", "x", 0, 0, "0x000000", "never", ""⟩ : JsEvent).«repeat» = "day" ∨
     (⟨"a", "x", 0, 0, "0x000000", "never", ""⟩ : JsEvent).«repeat» = "week" ∨
     (⟨"a", "x", 0, 0, "0x000000", "never", ""⟩ : JsEvent).«repeat» = "month") ∧
    deleteFilter 86400001 ⟨"a", "x", 0, 0, "0x000000", "never", ""⟩ "day" = true := by
  refine ⟨Or.inl rfl, ?_⟩
  exact (deleteFilter_spec 86400001 ⟨"a", "x", 0, 0, "0x000000", "never", ""⟩ "day"
    (Or.inl rfl)).mpr ⟨rfl, Or.inl ⟨rfl, by decide⟩⟩

/-- C8: for every event and every `now`, the actuality predicate holds exactly
when (a) the start is at most 10 hours after `now` and not before `now`, or
(b) the end is at most 2 hours before `now` and not after `now`, or (c) `now`
lies within the closed interval from start to end. -/
theorem actualEventsFilter_spec (now : Int) (event : JsEvent) :
    actualEventsFilter now event = true ↔
      ((event.start ≤ now + 10 * HOUR_MS ∧ ¬ event.start < now) ∨
       (now ≤ event.«end» + 2 * HOUR_MS ∧ ¬ now < event.«end») ∨
       (event.start ≤ now ∧ now ≤ event.«end»)) := by
  simp only [actualEventsFilter, HOUR_MS, decide_eq_true_eq]
  omega

/-- C9: for every point, every pair of angles and every value of the
abstracted `atan2` point angle, the hit test returns false whenever the
squared euclidean distance of the point from the dial center (240, 240)
exceeds the squared radius 200 — equivalently, whenever the distance exceeds
the radius. -/
theorem isThisEvent_far_from_center_false (atanDeg : Int → Int → ℚ) (x y : Int)
    (event : AngledEvent) (h : (x - 240) ^ 2 + (y - 240) ^ 2 > 200 ^ 2) :
    isThisEvent atanDeg x y event = false := by
  unfold isThisEvent
  rw [if_pos h]

/-- Witness for C9: the corner point (0, 0) lies outside the radius and the
hit test rejects it. -/
theorem isThisEvent_far_from_center_false_witness :
    ((0 : Int) - 240) ^ 2 + ((0 : Int) - 240) ^ 2 > 200 ^ 2 ∧
    isThisEvent (fun _ _ => 0) 0 0 ⟨0, 90⟩ = false :=
  ⟨by decide, isThisEvent_far_from_center_false (fun _ _ => 0) 0 0 ⟨0, 90⟩ (by decide)⟩

/-- C10: for every event of calculate.js whose start and end hours lie in
`[0, 24)` and minutes in `[0, 60)`, `calculateAngles` returns an end angle in
`[0, 360)` and a start angle in `[-360, 360)` with start angle at most end
angle; consequently the wrapping branch of the point-in-sector test is
unreachable on these angle pairs — `isThisEvent` agrees with its non-wrapping
branch at every point and every value of the abstracted point angle. -/
theorem calculateAngles_nonwrap (event : CalcEvent)
    (hsh0 : 0 ≤ event.start.h) (hsh : event.start.h < 24)
    (hsm0 : 0 ≤ event.start.m) (hsm : event.start.m < 60)
    (heh0 : 0 ≤ event.«end».h) (heh : event.«end».h < 24)
    (hem0 : 0 ≤ event.«end».m) (hem : event.«end».m < 60) :
    0 ≤ (calculateAngles event).2 ∧ (calculateAngles event).2 < 360 ∧
    -360 ≤ (calculateAngles event).1 ∧ (calculateAngles event).1 < 360 ∧
    (calculateAngles event).1 ≤ (calculateAngles event).2 ∧
    ∀ atanDeg x y,
      isThisEvent atanDeg x y ⟨(calculateAngles event).1, (calculateAngles event).2⟩ =
      isThisEventNonWrap atanDeg x y ⟨(calculateAngles event).1, (calculateAngles event).2⟩ := by
  obtain ⟨hs0, hs1⟩ := convertTimeToAngle_bounds event.start hsh0 hsh hsm0 hsm
  obtain ⟨he0, he1⟩ := convertTimeToAngle_bounds event.«end» heh0 heh hem0 hem
  unfold calculateAngles
  dsimp only
  have key : 0 ≤ convertTimeToAngle event.«end» ∧ convertTimeToAngle event.«end» < 360 ∧
      -360 ≤ (if convertTimeToAngle event.start > convertTimeToAngle event.«end» then
        convertTimeToAngle event.start - 360 else convertTimeToAngle event.start) ∧
      (if convertTimeToAngle event.start > convertTimeToAngle event.«end» then
        convertTimeToAngle event.start - 360 else convertTimeToAngle event.start) < 360 ∧
      (if convertTimeToAngle event.start > convertTimeToAngle event.«end» then
        convertTimeToAngle event.start - 360 else convertTimeToAngle event.start) ≤
        convertTimeToAngle event.«end» := by
    split
    · rename_i hgt
      refine ⟨he0, he1, by linarith, by linarith, by linarith⟩
    · rename_i hle
      push_neg at hle
      refine ⟨he0, he1, by linarith, by linarith, hle⟩
  refine ⟨key.1, key.2.1, key.2.2.1, key.2.2.2.1, key.2.2.2.2, ?_⟩
  intro atanDeg x y
  exact isThisEvent_eq_nonwrap_of_le _ key.2.2.2.2 atanDeg x y

/-- Witness for C10: the event from 22:00 to 23:30 satisfies the hour and
minute bounds and its computed start angle does not exceed its end angle. -/
theorem calculateAngles_nonwrap_witness :
    (0 : Int) ≤ 22 ∧ (22 : Int) < 24 ∧
    (calculateAngles ⟨⟨22, 0⟩, ⟨23, 30⟩⟩).1 ≤ (calculateAngles ⟨⟨22, 0⟩, ⟨23, 30⟩⟩).2 :=
  ⟨by decide, by decide,
   (calculateAngles_nonwrap ⟨⟨22, 0⟩, ⟨23, 30⟩⟩ (by decide) (by decide) (by decide) (by decide)
      (by decide) (by decide) (by decide) (by decide)).2.2.2.2.1⟩
